import Mathlib

/-!
Verification development for the cli-active-table repository.

The source is shallowly embedded: each TypeScript class becomes a Lean
structure holding the class fields, and each method becomes a function from
state to state.  JavaScript numbers used as indices and sizes are modelled
as `Int` (they are small integers throughout the source); entity references
are modelled as stable integer handles (`Nat`), so JS reference equality
(`===`) becomes equality of handles, and the JS `undefined` value that can
flow out of an out-of-range array read is modelled as `Option.none`.
A JS `Set` is modelled as an insertion-ordered duplicate-free list, which is
exactly the observable behaviour of `Set` iteration.
-/

/-! ## Section base state (src/src/section.ts)

Fields of `class Section`: `#cursorPos`, `#viewportPos`, `#isActive`,
`#filter`, `error`, `contentSize`, `viewportSize`, `filterMode`,
`filterTokens`, `filterRegExp`, and the constructor-chosen
`navigationMode` (shift strategy).  The `RegExp` object stored in
`filterRegExp` is modelled by the pattern string it was built from
(`filterTokens.join('|')`), `none` standing for the initial `undefined`. -/

inductive NavMode where
  | cursor
  | viewport
deriving DecidableEq, Repr

structure SectionState where
  cursorPos : Int
  viewportPos : Int
  contentSize : Int
  viewportSize : Int
  height : Int
  width : Int
  isActive : Bool
  filterMode : Bool
  error : String
  renderedTitle : String
  filterBuf : String
  filterTokens : List String
  filterRegExp : Option String
  navigationMode : NavMode

/-- Model of `Math.max` on (integer-valued) JS numbers. -/
def jsMax (a b : Int) : Int := max a b

/-- Model of `Math.min` on (integer-valued) JS numbers. -/
def jsMin (a b : Int) : Int := min a b

/-- Section.shift.cursor (src/src/section.ts lines 44-55): clamp the cursor
into `[0, contentSize - 1]` and scroll the viewport minimally to keep the
cursor visible. -/
def shiftCursor (s : SectionState) (val : Int) : SectionState :=
  let bottomLimit := s.contentSize - 1
  let c := jsMax 0 (jsMin val bottomLimit)
  if c < s.viewportPos then
    { s with cursorPos := c, viewportPos := c }
  else if c ≥ s.viewportPos + s.viewportSize then
    { s with cursorPos := c,
             viewportPos := c - jsMin s.viewportSize s.contentSize + 1 }
  else if s.contentSize - s.viewportPos < s.viewportSize then
    { s with cursorPos := c,
             viewportPos := jsMax (s.contentSize - s.viewportSize) 0 }
  else
    { s with cursorPos := c }

/-- Section.shift.viewport (src/src/section.ts lines 56-60): clamp the cursor
into `[0, contentSize - viewportSize]` and pin the viewport to the cursor. -/
def shiftViewport (s : SectionState) (val : Int) : SectionState :=
  let bottomLimit := s.contentSize - s.viewportSize
  let c := jsMax 0 (jsMin val bottomLimit)
  { s with cursorPos := c, viewportPos := c }

/-- Section cursorPos setter (src/src/section.ts lines 111-116): skip when the
value is unchanged, clear the error, leave filter mode when the target is
non-zero, then apply the configured shift strategy. -/
def setCursorPos (s : SectionState) (val : Int) : SectionState :=
  if s.cursorPos = val then s
  else
    let s2 := { s with error := ""
                       filterMode := if val ≠ 0 then false else s.filterMode }
    match s.navigationMode with
    | NavMode.cursor => shiftCursor s2 val
    | NavMode.viewport => shiftViewport s2 val

/-- The six navigation actions of `Section.navigation`
(src/src/section.ts lines 34-41). -/
inductive NavAction where
  | up
  | down
  | pageup
  | pagedown
  | left
  | right
deriving DecidableEq, Repr

/-- Dispatch one navigation action through the cursorPos setter. -/
def applyNav (s : SectionState) (a : NavAction) : SectionState :=
  match a with
  | NavAction.up => setCursorPos s (s.cursorPos - 1)
  | NavAction.down => setCursorPos s (s.cursorPos + 1)
  | NavAction.pageup => setCursorPos s (s.cursorPos - s.viewportSize)
  | NavAction.pagedown => setCursorPos s (s.cursorPos + s.viewportSize)
  | NavAction.left => setCursorPos s (s.cursorPos - s.contentSize)
  | NavAction.right => setCursorPos s (s.cursorPos + s.contentSize)

/-- Apply a sequence of navigation actions, first action first. -/
def applyNavs (s : SectionState) (acts : List NavAction) : SectionState :=
  acts.foldl applyNav s

/-- A freshly constructed section (constructor of `Section`): cursor and
viewport at 0, no error, no filter, given geometry and shift strategy. -/
def initSection (contentSize viewportSize : Int) (mode : NavMode) : SectionState :=
  { cursorPos := 0
    viewportPos := 0
    contentSize := contentSize
    viewportSize := viewportSize
    height := 0
    width := 0
    isActive := false
    filterMode := false
    error := ""
    renderedTitle := ""
    filterBuf := ""
    filterTokens := []
    filterRegExp := none
    navigationMode := mode }

/-- The cursor/viewport invariant of the spec data model:
`viewportPos ≤ cursorPos < viewportPos + viewportSize` and
`cursorPos ∈ [0, contentSize - 1]`. -/
def CursorInv (s : SectionState) : Prop :=
  s.viewportPos ≤ s.cursorPos ∧
  s.cursorPos < s.viewportPos + s.viewportSize ∧
  0 ≤ s.cursorPos ∧ s.cursorPos ≤ s.contentSize - 1

theorem shiftCursor_inv (s : SectionState) (val : Int)
    (hc : 0 < s.contentSize) (hv : 0 < s.viewportSize) :
    CursorInv (shiftCursor s val) := by
  simp only [shiftCursor, jsMax, jsMin]
  split_ifs with h1 h2 h3 <;>
    · simp only [CursorInv]
      omega

theorem shiftViewport_inv (s : SectionState) (val : Int)
    (hc : 0 < s.contentSize) (hv : 0 < s.viewportSize) :
    CursorInv (shiftViewport s val) := by
  simp only [shiftViewport, jsMax, jsMin, CursorInv]
  omega

theorem setCursorPos_inv (s : SectionState) (val : Int)
    (hc : 0 < s.contentSize) (hv : 0 < s.viewportSize)
    (hs : CursorInv s) : CursorInv (setCursorPos s val) := by
  rw [setCursorPos]
  by_cases h1 : s.cursorPos = val
  · rw [if_pos h1]; exact hs
  · rw [if_neg h1]
    cases hmode : s.navigationMode <;> simp only [hmode]
    · exact shiftCursor_inv _ _ hc hv
    · exact shiftViewport_inv _ _ hc hv

theorem applyNav_inv (s : SectionState) (a : NavAction)
    (hc : 0 < s.contentSize) (hv : 0 < s.viewportSize)
    (hs : CursorInv s) : CursorInv (applyNav s a) := by
  cases a <;> exact setCursorPos_inv _ _ hc hv hs

theorem shiftCursor_geometry (s : SectionState) (val : Int) :
    (shiftCursor s val).contentSize = s.contentSize ∧
    (shiftCursor s val).viewportSize = s.viewportSize := by
  simp only [shiftCursor]
  split_ifs <;> exact ⟨rfl, rfl⟩

theorem setCursorPos_geometry (s : SectionState) (val : Int) :
    (setCursorPos s val).contentSize = s.contentSize ∧
    (setCursorPos s val).viewportSize = s.viewportSize := by
  rw [setCursorPos]
  by_cases h1 : s.cursorPos = val
  · rw [if_pos h1]; exact ⟨rfl, rfl⟩
  · rw [if_neg h1]
    cases hmode : s.navigationMode <;> simp only [hmode]
    · exact shiftCursor_geometry _ _
    · exact ⟨rfl, rfl⟩

theorem applyNav_geometry (s : SectionState) (a : NavAction) :
    (applyNav s a).contentSize = s.contentSize ∧
    (applyNav s a).viewportSize = s.viewportSize := by
  cases a <;> exact setCursorPos_geometry _ _

/-- C1: starting from a freshly constructed section with positive content and
viewport sizes, every sequence of navigation actions (up, down, pageup,
pagedown, left, right) leaves the state satisfying
`viewportPos ≤ cursorPos < viewportPos + viewportSize` and
`0 ≤ cursorPos ≤ contentSize - 1`; since this holds for every action list it
holds after each action of any sequence, for both shift strategies. -/
theorem nav_preserves_cursor_invariant (contentSize viewportSize : Int)
    (mode : NavMode) (acts : List NavAction)
    (hc : 0 < contentSize) (hv : 0 < viewportSize) :
    CursorInv (applyNavs (initSection contentSize viewportSize mode) acts) := by
  have hinit : CursorInv (initSection contentSize viewportSize mode) := by
    unfold CursorInv initSection; constructor <;> simp <;> omega
  suffices h : ∀ (s : SectionState), 0 < s.contentSize → 0 < s.viewportSize →
      CursorInv s → CursorInv (applyNavs s acts) from
    h _ (by simpa [initSection] using hc) (by simpa [initSection] using hv) hinit
  induction acts with
  | nil => intro s _ _ hs; exact hs
  | cons a rest ih =>
      intro s hc' hv' hs
      have hgeo := applyNav_geometry s a
      exact ih (applyNav s a) (hgeo.1 ▸ hc') (hgeo.2 ▸ hv')
        (applyNav_inv s a hc' hv' hs)

/-- Witness for C1 at a concrete input: a section of 5 rows with a 2-row
viewport, after down, down, down, pageup, right. -/
theorem nav_preserves_cursor_invariant_witness :
    CursorInv (applyNavs (initSection 5 2 NavMode.cursor)
      [NavAction.down, NavAction.down, NavAction.down,
       NavAction.pageup, NavAction.right]) :=
  nav_preserves_cursor_invariant 5 2 NavMode.cursor _ (by decide) (by decide)

/-! ## Filter buffer, tokens and regex (src/src/section.ts lines 79-87, 191-199)

The `filter` setter recomputes `filterTokens` from the buffer with
`filter.match(/"([^"]+)"|\S+/g)`, strips surrounding quotes with
`token.replace(/(^"|"$)/g, '')`, and rebuilds `filterRegExp` from
`filterTokens.join('|')` only when the token list is non-empty. -/

/-- Model of the JS whitespace class for the characters a filter buffer can
contain. -/
def isWS (c : Char) : Bool :=
  c == ' ' || c == '\t' || c == '\n' || c == '\r'

/-- Model of `String.prototype.toLowerCase` (ASCII range, which is what the
key decoder produces). -/
def jsToLower (s : String) : String :=
  String.mk (s.data.map Char.toLower)

/-- Index of the first double quote in a character list (the closing quote
candidate for the first regex alternative). -/
def findQuote (l : List Char) : Option Nat :=
  l.findIdx? (fun c => c == '"')

/-- One global pass of `/"([^"]+)"|\S+/g`: at each position that can start a
match, the quoted alternative `"([^"]+)"` is tried first (it succeeds when a
closing quote exists with at least one intervening character, and greedily
consumes up to that first closing quote), otherwise `\S+` takes the maximal
run of non-whitespace characters.  Whitespace between matches is skipped.
Fuel is the remaining input length; every step consumes at least one char. -/
def tokenizeAux : Nat → List Char → List (List Char)
  | 0, _ => []
  | _ + 1, [] => []
  | fuel + 1, c :: rest =>
    if isWS c then tokenizeAux fuel rest
    else
      let quoted : Option (List Char × List Char) :=
        if c == '"' then
          match findQuote rest with
          | some j =>
            if 0 < j then some (c :: (rest.take j ++ ['"']), rest.drop (j + 1))
            else none
          | none => none
        else none
      match quoted with
      | some (tok, rest2) => tok :: tokenizeAux fuel rest2
      | none =>
        let sp := (c :: rest).span (fun ch => !(isWS ch))
        sp.1 :: tokenizeAux fuel sp.2

/-- Model of `token.replace(/(^"|"$)/g, '')`: remove one leading and one
trailing double quote (the same character is never consumed twice). -/
def stripQuotes (l : List Char) : List Char :=
  let l1 := match l with
    | '"' :: t => t
    | _ => l
  match l1.getLast? with
  | some '"' => l1.dropLast
  | _ => l1

/-- The token list derived from a filter buffer:
`filter.match(/"([^"]+)"|\S+/g)?.map(t => t.replace(/(^"|"$)/g, '')) || []`. -/
def tokenize (s : String) : List String :=
  (tokenizeAux s.data.length s.data).map (fun t => String.mk (stripQuotes t))

/-- Section filter setter (src/src/section.ts lines 79-87): store the buffer,
regenerate the tokens, and rebuild the regex only when there are tokens —
an empty token list leaves the previous `filterRegExp` in place. -/
def setFilter (s : SectionState) (f : String) : SectionState :=
  let tokens := tokenize f
  { s with filterBuf := f
           filterTokens := tokens
           filterRegExp :=
             if 0 < tokens.length then some (String.intercalate "|" tokens)
             else s.filterRegExp }

/-- Decoded keystroke (src/src/io.ts `Key`). -/
structure Key where
  sequence : String
  name : String
  ctrl : Bool
  meta : Bool
  shift : Bool

/-- The filter-editing part of Section.handleTyping (src/src/section.ts lines
191-199): ignore keys outside filter mode; backspace removes one character
(ctrl-backspace clears); any other key appends its lower-cased sequence.
The trailing `this.filterData()` call is dispatched by the subclass and is
modelled separately (`handleTypingLS`). -/
def handleTypingSec (s : SectionState) (k : Key) : SectionState :=
  if !s.filterMode then s
  else if k.name == "backspace" then
    setFilter s (if k.ctrl then "" else s.filterBuf.dropRight 1)
  else
    setFilter s (s.filterBuf ++ jsToLower k.sequence)

/-! ## Entity values (model of the JS data an entity record holds)

An entity is a record from field names to JS values.  `JsVal` models the
value universe: strings, numbers, booleans, null, undefined, and (one level
of) plain objects — enough to express `typeof` and the `JSON.stringify`
output that the filtering code feeds on.  Object fields hold primitive
values; this bounds the model of the external `JSON.stringify` builtin. -/

inductive JsPrim where
  | pStr (s : String)
  | pNum (n : Int)
  | pBool (b : Bool)
  | pNull
deriving DecidableEq, Repr

inductive JsVal where
  | vStr (s : String)
  | vNum (n : Int)
  | vBool (b : Bool)
  | vNull
  | vUndef
  | vObj (fields : List (String × JsPrim))
deriving DecidableEq, Repr

/-- Model of the JS `typeof` operator (note `typeof null === 'object'`). -/
def typeofJs : JsVal → String
  | JsVal.vStr _ => "string"
  | JsVal.vNum _ => "number"
  | JsVal.vBool _ => "boolean"
  | JsVal.vNull => "object"
  | JsVal.vUndef => "undefined"
  | JsVal.vObj _ => "object"

/-- JSON string escaping (model of the external builtin, restricted to the
two escapes that can arise from the quote and backslash characters). -/
def escapeJson (s : String) : String :=
  String.mk (s.data.foldr
    (fun c acc => if c == '"' || c == '\\' then '\\' :: c :: acc else c :: acc)
    [])

def jsonStringifyPrim : JsPrim → String
  | JsPrim.pStr s => "\"" ++ escapeJson s ++ "\""
  | JsPrim.pNum n => toString n
  | JsPrim.pBool b => if b then "true" else "false"
  | JsPrim.pNull => "null"

/-- Model of the external `JSON.stringify` builtin on the value universe. -/
def jsonStringify : JsVal → String
  | JsVal.vStr s => "\"" ++ escapeJson s ++ "\""
  | JsVal.vNum n => toString n
  | JsVal.vBool b => if b then "true" else "false"
  | JsVal.vNull => "null"
  | JsVal.vUndef => "undefined"
  | JsVal.vObj fields =>
    "\x7b" ++
      String.intercalate ","
        (fields.map (fun kv =>
          "\"" ++ escapeJson kv.1 ++ "\":" ++ jsonStringifyPrim kv.2)) ++
      "\x7d"

/-- Model of `String.prototype.includes`: the needle occurs as a contiguous
substring of the haystack (an empty needle always occurs). -/
def leadsWith (needle hay : List Char) : Bool :=
  match needle, hay with
  | [], _ => true
  | _ :: _, [] => false
  | x :: xs, y :: ys => if x = y then leadsWith xs ys else false

def hasRun (needle hay : List Char) : Bool :=
  match hay with
  | [] => needle.isEmpty
  | _ :: t => leadsWith needle hay || hasRun needle t

def strIncludes (hay needle : String) : Bool :=
  hasRun needle.data hay.data

/-! ## ListSection (src/unnamed/part_007)

Entities are opaque records identified by reference; the model assigns every
live object a stable handle (`Nat`) and a heap `env` mapping handles to the
record contents.  `entities` and `filtered` are lists of handles; `selected`
models the JS `Set<T>` as its insertion-ordered element list — an element is
`some h` for an entity reference, or `none` for the JS `undefined` value
that `this.filtered[this.cursorPos]` yields when the cursor is out of
range. -/

/-- `const searchTypes = ['string', 'number', 'object']` (part_007 line 23). -/
def searchTypes : List String := ["string", "number", "object"]

structure ListSectionState where
  sec : SectionState
  env : Nat → List (String × JsVal)
  entities : List Nat
  filtered : List Nat
  selected : List (Option Nat)
  validate : List (Option Nat) → Bool × String

/-- JS `Set.prototype.add`: append if not already present (keeps insertion
order, never duplicates). -/
def setAdd (sel : List (Option Nat)) (x : Option Nat) : List (Option Nat) :=
  if sel.contains x then sel else sel ++ [x]

/-- JS `Set.prototype.delete`: remove the element if present. -/
def setDelete (sel : List (Option Nat)) (x : Option Nat) : List (Option Nat) :=
  sel.filter (fun y => y ≠ x)

/-- ListSection.getSelected (part_007 lines 77-79): `[...this.selected]`,
the selection in Set iteration (= insertion) order. -/
def getSelected (ls : ListSectionState) : List (Option Nat) :=
  ls.selected

/-- ListSection.entityMatchFilter (part_007 lines 125-133): the entity
matches when every token is contained in the lower-cased, `'│'`-joined
JSON-stringification of the values of its properties whose `typeof` is in
`searchTypes`. -/
def entityMatchFilter (entity : List (String × JsVal)) (tokens : List String) :
    Bool :=
  let searchableValues :=
    (entity.filter (fun kv => searchTypes.contains (typeofJs kv.2))).map
      (fun kv => jsonStringify kv.2)
  let str := jsToLower (String.intercalate "│" searchableValues)
  tokens.all (fun token => strIncludes str token)

/-- ListSection.filterData (part_007 lines 94-99): reset the cursor through
the setter, then derive `filtered` from `entities` — the matching subset
when there are tokens, the whole list otherwise. -/
def filterData (ls : ListSectionState) : ListSectionState :=
  let ls := { ls with sec := setCursorPos ls.sec 0 }
  let newFiltered :=
    if 0 < ls.sec.filterTokens.length then
      ls.entities.filter (fun h => entityMatchFilter (ls.env h) ls.sec.filterTokens)
    else ls.entities
  { ls with filtered := newFiltered }

/-- ListSection.toggleActiveRow (part_007 lines 166-169):
`const row = this.filtered[this.cursorPos]` (JS yields `undefined` when the
index is out of range), then delete it from the selection if present, else
add it. -/
def toggleActiveRow (ls : ListSectionState) : ListSectionState :=
  let row : Option Nat := ls.filtered.get? ls.sec.cursorPos.toNat
  if ls.selected.contains row then
    { ls with selected := setDelete ls.selected row }
  else
    { ls with selected := setAdd ls.selected row }

/-- ListSection keyActions entry for ctrl-a (part_007 lines 82-88): clear the
selection when its size equals the filtered length, otherwise add every
filtered row to the selection. -/
def ctrlA (ls : ListSectionState) : ListSectionState :=
  if ls.selected.length = ls.filtered.length then
    { ls with selected := [] }
  else
    { ls with selected :=
        ls.filtered.foldl (fun sel e => setAdd sel (some e)) ls.selected }

/-- ListSection.deleteRows (part_007 lines 136-147): with a non-empty
selection, drop every selected entity from `entities` and `filtered` and
clear the selection; otherwise splice the row under the cursor out of
`filtered` and drop it (by reference) from `entities`.  Afterwards
`contentSize` is updated and `this.cursorPos = this.cursorPos` goes through
the setter (which returns immediately on an unchanged value). -/
def deleteRows (ls : ListSectionState) : ListSectionState :=
  let ls :=
    if 0 < ls.selected.length then
      { ls with
          entities := ls.entities.filter
            (fun e => !(ls.selected.contains (some e)))
          filtered := ls.filtered.filter
            (fun e => !(ls.selected.contains (some e)))
          selected := [] }
    else
      let deleted : Option Nat := ls.filtered.get? ls.sec.cursorPos.toNat
      { ls with
          filtered := ls.filtered.eraseIdx ls.sec.cursorPos.toNat
          entities := ls.entities.filter (fun e => !(deleted == some e)) }
  let ls := { ls with sec := { ls.sec with contentSize := ls.filtered.length } }
  { ls with sec := setCursorPos ls.sec ls.sec.cursorPos }

/-- ListSection.stringMatchFilter (part_007 lines 197-199): some token is a
substring of the lower-cased cell text (used as the guard for search-match
highlighting in renderRow). -/
def stringMatchFilter (str : String) (tokens : List String) : Bool :=
  tokens.any (fun token => strIncludes (jsToLower str) token)

/-- ListSection.handleTyping (part_007 lines 118-123): space outside filter
mode toggles the row under the cursor; everything else goes to the base
handler, whose trailing `this.filterData()` dispatches back to
ListSection.filterData. -/
def handleTypingLS (ls : ListSectionState) (k : Key) : ListSectionState :=
  if !ls.sec.filterMode && k.name == "space" then
    toggleActiveRow ls
  else if !ls.sec.filterMode then ls
  else
    filterData { ls with sec := handleTypingSec ls.sec k }

/-! ## C2: filtering is exact token matching, and clearing restores the set -/

/-- The spec side of C2, phrased from the specification text: an entity
belongs to the filtered view iff every token is a case-insensitive substring
of the pipe-joined, JSON-stringified searchable values of its own
properties. -/
def specEntityMatches (entity : List (String × JsVal)) (tokens : List String) :
    Bool :=
  let joined :=
    String.intercalate "│"
      ((entity.filter (fun kv => searchTypes.contains (typeofJs kv.2))).map
        (fun kv => jsonStringify kv.2))
  tokens.all (fun t => strIncludes (jsToLower joined) (jsToLower t))

theorem listAllCongr {α : Type} {l : List α} {f g : α → Bool}
    (h : ∀ x ∈ l, f x = g x) : l.all f = l.all g := by
  induction l with
  | nil => rfl
  | cons a t ih =>
      have ha : f a = g a := h a (List.mem_cons_self a t)
      have ht : t.all f = t.all g :=
        ih (fun x hx => h x (List.mem_cons_of_mem a hx))
      simp only [List.all_cons, ha, ht]

theorem entityMatchFilter_eq_spec (entity : List (String × JsVal))
    (tokens : List String) (hlow : ∀ t ∈ tokens, jsToLower t = t) :
    entityMatchFilter entity tokens = specEntityMatches entity tokens := by
  unfold entityMatchFilter specEntityMatches
  exact listAllCongr (fun t ht => by rw [hlow t ht])

theorem filterData_sets (ls : ListSectionState) :
    (filterData ls).entities = ls.entities ∧
    (filterData ls).filtered =
      (if 0 < ls.sec.filterTokens.length then
        ls.entities.filter
          (fun h => entityMatchFilter (ls.env h) ls.sec.filterTokens)
      else ls.entities) ∧
    (filterData ls).sec.filterTokens = ls.sec.filterTokens ∧
    (filterData ls).sec.filterBuf = ls.sec.filterBuf ∧
    (filterData ls).sec.navigationMode = ls.sec.navigationMode ∧
    (filterData ls).env = ls.env := by
  unfold filterData
  refine ⟨rfl, ?_, ?_, ?_, ?_, rfl⟩ <;>
    · rw [setCursorPos]
      by_cases h1 : ls.sec.cursorPos = (0 : Int)
      · rw [if_pos h1]
      · rw [if_neg h1]
        cases hmode : ls.sec.navigationMode <;> simp only [hmode]
        · simp only [shiftCursor]; split_ifs <;> rfl
        · rfl

/-- Clearing the filter buffer and re-deriving the view: the composition of
the filter setter with an empty string and filterData, exactly the state
path taken by ctrl-backspace in Section.handleTyping. -/
def clearFilter (ls : ListSectionState) : ListSectionState :=
  filterData { ls with sec := setFilter ls.sec "" }

theorem tokenize_nil : tokenize "" = [] := rfl

/-- C2: for every list section whose tokens are lower-case (they always are:
Section.handleTyping lower-cases every appended character), after filterData
the filtered view is exactly the canonical entities, in canonical order,
that match every token case-insensitively; an empty token set yields the
full canonical entity set; and applying a filter and then clearing the
buffer restores the pre-filter content and order. -/
theorem filterData_exact_and_clear_restores (ls : ListSectionState)
    (hlow : ∀ t ∈ ls.sec.filterTokens, jsToLower t = t)
    (hpre : ls.filtered = ls.entities) :
    (filterData ls).filtered =
      ls.entities.filter (fun h => specEntityMatches (ls.env h) ls.sec.filterTokens) ∧
    (ls.sec.filterTokens = [] → (filterData ls).filtered = ls.entities) ∧
    (clearFilter (filterData ls)).filtered = ls.filtered ∧
    (clearFilter (filterData ls)).entities = ls.entities := by
  obtain ⟨he, hf, _, _, _, henv⟩ := filterData_sets ls
  have hmain : (filterData ls).filtered =
      ls.entities.filter
        (fun h => specEntityMatches (ls.env h) ls.sec.filterTokens) := by
    rw [hf]
    by_cases h0 : 0 < ls.sec.filterTokens.length
    · rw [if_pos h0]
      exact List.filter_congr
        (fun h _ => entityMatchFilter_eq_spec (ls.env h) _ hlow)
    · rw [if_neg h0]
      have hnil : ls.sec.filterTokens = [] := by
        cases hx : ls.sec.filterTokens with
        | nil => rfl
        | cons a t => rw [hx] at h0; simp at h0
      symm
      rw [List.filter_eq_self]
      intro a _
      simp [specEntityMatches, hnil]
  refine ⟨hmain, ?_, ?_, ?_⟩
  · intro hnil
    rw [hmain]
    rw [List.filter_eq_self]
    intro a _
    simp [specEntityMatches, hnil]
  · unfold clearFilter
    obtain ⟨he2, hf2, _, _, _, _⟩ :=
      filterData_sets { (filterData ls) with sec := setFilter (filterData ls).sec "" }
    rw [hf2]
    have : (setFilter (filterData ls).sec "").filterTokens = [] := by
      simp [setFilter, tokenize_nil]
    simp only [this]
    simp [he, hpre]
  · unfold clearFilter
    obtain ⟨he2, _, _, _, _, _⟩ :=
      filterData_sets { (filterData ls) with sec := setFilter (filterData ls).sec "" }
    rw [he2]
    simp [he]

/-- Concrete list section used by the C2 witness: two entities, the first
containing the substring "al" in a string field. -/
def c2Section : ListSectionState :=
  { sec := { initSection 2 5 NavMode.cursor with filterTokens := ["al"] }
    env := fun h =>
      if h = 0 then [("name", JsVal.vStr "Alpha"), ("n", JsVal.vNum 1)]
      else [("name", JsVal.vStr "beta")]
    entities := [0, 1]
    filtered := [0, 1]
    selected := []
    validate := fun _ => (true, "") }

/-- Witness for C2 at the concrete section: filtering with token "al" keeps
exactly entity 0 (its string value "Alpha" matches case-insensitively), and
clearing the buffer restores the full list. -/
theorem filterData_exact_and_clear_restores_witness :
    (filterData c2Section).filtered =
      c2Section.entities.filter
        (fun h => specEntityMatches (c2Section.env h) c2Section.sec.filterTokens) ∧
    (filterData c2Section).filtered = [0] ∧
    (clearFilter (filterData c2Section)).filtered = [0, 1] := by
  have h := filterData_exact_and_clear_restores c2Section
    (by intro t ht; fin_cases ht <;> rfl) rfl
  exact ⟨h.1, by rw [h.1]; decide, by rw [h.2.2.1]; rfl⟩

/-! ## C4: delete under cursor — removal is exact, clamping is broken -/

/-- C4 failing input: a list section over two entities with the cursor on the
last row (one `down` from the initial state), empty selection, no filter. -/
def c4Section : ListSectionState :=
  { sec := applyNav (initSection 2 5 NavMode.cursor) NavAction.down
    env := fun _ => []
    entities := [10, 11]
    filtered := [10, 11]
    selected := []
    validate := fun _ => (true, "") }

/-- C4: deleting the row under the cursor at the last position removes exactly
that entity from both the canonical list and the filtered view, but the
closing `this.cursorPos = this.cursorPos` self-assignment hits the cursorPos
setter's unchanged-value early return (src/src/section.ts line 112), so the
cursor stays at 1 — outside the new valid range [0, 0].  The inline comment
"to adjust viewport position" (part_007 line 146) documents the intended
re-clamp that never runs. -/
theorem deleteRows_cursor_not_clamped :
    (deleteRows c4Section).entities = [10] ∧
    (deleteRows c4Section).filtered = [10] ∧
    (deleteRows c4Section).sec.cursorPos = 1 ∧
    ((deleteRows c4Section).filtered.length : Int) - 1 <
      (deleteRows c4Section).sec.cursorPos := by
  decide

/-! ## JS Set helper lemmas shared by C5, C6 and C7 -/

theorem setAdd_of_not_mem {sel : List (Option Nat)} {x : Option Nat}
    (h : x ∉ sel) : setAdd sel x = sel ++ [x] := by
  unfold setAdd
  rw [if_neg]
  simpa [List.elem_iff] using h

theorem mem_setAdd {sel : List (Option Nat)} {x y : Option Nat} :
    y ∈ setAdd sel x → y ∈ sel ∨ y = x := by
  unfold setAdd
  split_ifs with h
  · exact fun hy => Or.inl hy
  · intro hy
    rcases List.mem_append.mp hy with h1 | h1
    · exact Or.inl h1
    · exact Or.inr (by simpa using h1)

theorem mem_setAdd_of_mem {sel : List (Option Nat)} {x y : Option Nat}
    (h : y ∈ sel) : y ∈ setAdd sel x := by
  unfold setAdd
  split_ifs with hx
  · exact h
  · exact List.mem_append.mpr (Or.inl h)

theorem self_mem_setAdd {sel : List (Option Nat)} {x : Option Nat} :
    x ∈ setAdd sel x := by
  unfold setAdd
  split_ifs with hx
  · exact List.elem_iff.mp hx
  · exact List.mem_append.mpr (Or.inr (by simp))

theorem foldl_setAdd_append (l : List Nat) (acc : List (Option Nat))
    (h : ∀ e ∈ l, (some e) ∉ acc) (hnod : l.Nodup) :
    l.foldl (fun sel e => setAdd sel (some e)) acc = acc ++ l.map some := by
  induction l generalizing acc with
  | nil => simp
  | cons e t ih =>
      rw [List.foldl_cons, setAdd_of_not_mem (h e (by simp))]
      rw [ih (acc ++ [some e])
        (by
          intro x hx
          rw [List.mem_append]
          push_neg
          refine ⟨h x (by simp [hx]), ?_⟩
          have hne : x ≠ e := by
            intro he
            exact (List.nodup_cons.mp hnod).1 (he ▸ hx)
          simp [hne])
        (List.nodup_cons.mp hnod).2]
      simp

theorem mem_foldl_setAdd (l : List Nat) (acc : List (Option Nat))
    (x : Option Nat)
    (hx : x ∈ l.foldl (fun sel e => setAdd sel (some e)) acc) :
    x ∈ acc ∨ ∃ e ∈ l, x = some e := by
  induction l generalizing acc with
  | nil => exact Or.inl hx
  | cons e t ih =>
      rw [List.foldl_cons] at hx
      rcases ih (setAdd acc (some e)) hx with h1 | h1
      · rcases mem_setAdd h1 with h2 | h2
        · exact Or.inl h2
        · exact Or.inr ⟨e, by simp, h2⟩
      · obtain ⟨e2, he2, hxe⟩ := h1
        exact Or.inr ⟨e2, by simp [he2], hxe⟩

theorem mem_foldl_setAdd_mono (l : List Nat) (acc : List (Option Nat))
    (x : Option Nat) (hx : x ∈ acc) :
    x ∈ l.foldl (fun sel r => setAdd sel (some r)) acc := by
  induction l generalizing acc with
  | nil => exact hx
  | cons a t ih =>
      rw [List.foldl_cons]
      exact ih _ (mem_setAdd_of_mem hx)

theorem mem_foldl_setAdd_of_mem_list (l : List Nat) (acc : List (Option Nat))
    (e : Nat) (he : e ∈ l) :
    some e ∈ l.foldl (fun sel r => setAdd sel (some r)) acc := by
  induction l generalizing acc with
  | nil => cases he
  | cons a t ih =>
      rw [List.foldl_cons]
      rcases List.mem_cons.mp he with h1 | h1
      · subst h1
        exact mem_foldl_setAdd_mono _ _ _ self_mem_setAdd
      · exact ih _ h1

/-! ## C5: select-all toggle -/

/-- C5 counterexample input: two filtered rows, one of them selected. -/
def c5Section : ListSectionState :=
  { sec := initSection 2 5 NavMode.cursor
    env := fun _ => []
    entities := [0, 1]
    filtered := [0, 1]
    selected := [some 0]
    validate := fun _ => (true, "") }

/-- C5 counterexample: starting from selection [entity 0] with filtered rows
[0, 1], the first ctrl-a selects everything and the second clears, so two
toggles in succession do not return the selection to its original state. -/
theorem ctrlA_double_toggle_not_involutive :
    getSelected (ctrlA (ctrlA c5Section)) ≠ getSelected c5Section := by
  decide

/-- C5 amended: the toggle clears the selection when the selection size
equals the filtered length (not when "all filtered rows are selected") and
otherwise adds every filtered row; two toggles in succession restore the
original selection when it was empty or consisted of exactly the filtered
rows. -/
theorem ctrlA_toggle_amended (ls : ListSectionState)
    (hnod : ls.filtered.Nodup)
    (h : ls.selected = [] ∨ ls.selected = ls.filtered.map some) :
    getSelected (ctrlA (ctrlA ls)) = getSelected ls ∧
    (ls.selected.length = ls.filtered.length → (ctrlA ls).selected = []) ∧
    (ls.selected.length ≠ ls.filtered.length →
      ∀ e ∈ ls.filtered, some e ∈ (ctrlA ls).selected) := by
  refine ⟨?_, ?_, ?_⟩
  · rcases h with hsel | hsel
    · by_cases hlen : ls.selected.length = ls.filtered.length
      · have hfil : ls.filtered = [] := by
          rw [hsel] at hlen; exact List.eq_nil_of_length_eq_zero hlen.symm
        have h1 : ctrlA ls = { ls with selected := [] } := by
          unfold ctrlA; rw [if_pos hlen]
        have h2 : ctrlA { ls with selected := [] } = { ls with selected := [] } := by
          unfold ctrlA
          rw [if_pos (by simp [hfil])]
        rw [h1, h2]
        simp [getSelected, hsel]
      · have h1 : ctrlA ls = { ls with selected := ls.filtered.map some } := by
          unfold ctrlA
          rw [if_neg hlen, hsel, foldl_setAdd_append _ _ (by simp) hnod,
            List.nil_append]
        have h2 : ctrlA { ls with selected := ls.filtered.map some } =
            { ls with selected := [] } := by
          unfold ctrlA
          rw [if_pos (by simp)]
        rw [h1, h2]
        simp [getSelected, hsel]
    · have hlen1 : ls.selected.length = ls.filtered.length := by simp [hsel]
      have h1 : ctrlA ls = { ls with selected := [] } := by
        unfold ctrlA; rw [if_pos hlen1]
      by_cases h0 : ls.filtered = []
      · have h2 : ctrlA { ls with selected := [] } = { ls with selected := [] } := by
          unfold ctrlA
          rw [if_pos (by simp [h0])]
        rw [h1, h2]
        simp [getSelected, hsel, h0]
      · have h2 : ctrlA { ls with selected := [] } =
            { ls with selected := ls.filtered.map some } := by
          unfold ctrlA
          rw [if_neg (by
            simp only [List.length_nil]
            intro hh
            exact h0 (List.eq_nil_of_length_eq_zero hh.symm))]
          rw [foldl_setAdd_append _ _ (by simp) hnod, List.nil_append]
        rw [h1, h2]
        simp [getSelected, hsel]
  · intro hlen
    unfold ctrlA
    rw [if_pos hlen]
  · intro hlen e he
    unfold ctrlA
    rw [if_neg hlen]
    exact mem_foldl_setAdd_of_mem_list _ _ _ he

/-- Witness for C5 amended at a concrete input: empty selection over two
rows; the first toggle selects both rows and the second restores emptiness. -/
theorem ctrlA_toggle_amended_witness :
    getSelected (ctrlA (ctrlA c2Section)) = getSelected c2Section ∧
    (some 0 ∈ (ctrlA c2Section).selected ∧ some 1 ∈ (ctrlA c2Section).selected) := by
  have h := ctrlA_toggle_amended c2Section (by decide) (Or.inl rfl)
  refine ⟨h.1, ?_, ?_⟩
  · exact h.2.2 (by decide) 0 (by decide)
  · exact h.2.2 (by decide) 1 (by decide)

/-! ## C6: order of getSelected -/

theorem contains_eq_false_of_not_mem {l : List (Option Nat)} {x : Option Nat}
    (h : x ∉ l) : l.contains x = false := by
  rw [Bool.eq_false_iff]
  intro hb
  exact h (List.elem_iff.mp hb)

theorem setCursorPos_navigationMode (s : SectionState) (val : Int) :
    (setCursorPos s val).navigationMode = s.navigationMode := by
  rw [setCursorPos]
  by_cases h1 : s.cursorPos = val
  · rw [if_pos h1]
  · rw [if_neg h1]
    cases hmode : s.navigationMode <;> simp only [hmode]
    · simp only [shiftCursor]
      split_ifs <;> rfl
    · rfl

/-- In cursor mode, setting the cursor to an in-range value lands exactly
there (the clamp is the identity). -/
theorem setCursorPos_cursor_inrange (s : SectionState) (v : Int)
    (hm : s.navigationMode = NavMode.cursor)
    (h0 : 0 ≤ v) (h1 : v ≤ s.contentSize - 1) :
    (setCursorPos s v).cursorPos = v := by
  rw [setCursorPos]
  by_cases he : s.cursorPos = v
  · rw [if_pos he]; exact he
  · rw [if_neg he]
    simp only [hm]
    simp only [shiftCursor, jsMax, jsMin]
    split_ifs <;> (dsimp only; omega)

/-- Move the cursor to row `i` through the setter and toggle the selection
of the row under the cursor — the state path of pressing space on row `i`. -/
def toggleRowAt (ls : ListSectionState) (i : Int) : ListSectionState :=
  toggleActiveRow { ls with sec := setCursorPos ls.sec i }

/-- Toggle a list of rows in the given order. -/
def toggleRows (ls : ListSectionState) (idxs : List Nat) : ListSectionState :=
  idxs.foldl (fun s i => toggleRowAt s (i : Int)) ls

/-- C6 counterexample input: three entities in input order 0, 1, 2. -/
def c6Section : ListSectionState :=
  { sec := initSection 3 5 NavMode.cursor
    env := fun h => [("id", JsVal.vNum (h + 1))]
    entities := [0, 1, 2]
    filtered := [0, 1, 2]
    selected := []
    validate := fun _ => (true, "") }

/-- C6 counterexample: selecting row 2 first and then row 0 makes
getSelected return the rows in selection order [2, 0], not in the original
input order [0, 2] — `[...this.selected]` iterates the Set in insertion
order, so the result does depend on the order in which rows were selected. -/
theorem getSelected_not_input_order :
    getSelected (toggleRowAt (toggleRowAt c6Section 2) 0) = [some 2, some 0] ∧
    getSelected (toggleRowAt (toggleRowAt c6Section 2) 0) ≠ [some 0, some 2] := by
  decide

/-- C6 amended: getSelected returns the selected entities in Set insertion
order — the order in which the rows were toggled on; toggling rows whose
indices are fresh appends them one by one, so when rows are selected in
increasing index order the result coincides with the original input order. -/
theorem getSelected_insertion_order (ls : ListSectionState) (idxs : List Nat)
    (hmode : ls.sec.navigationMode = NavMode.cursor)
    (hcs : ls.sec.contentSize = (ls.filtered.length : Int))
    (hnodF : ls.filtered.Nodup) (hnodI : idxs.Nodup)
    (hrange : ∀ i ∈ idxs, i < ls.filtered.length)
    (hsel : ∀ i ∈ idxs, ls.filtered.get? i ∉ ls.selected) :
    getSelected (toggleRows ls idxs) =
      ls.selected ++ idxs.map (fun i => ls.filtered.get? i) := by
  induction idxs generalizing ls with
  | nil => simp [toggleRows, getSelected]
  | cons i t ih =>
      have hi : i < ls.filtered.length := hrange i (by simp)
      have hcur : (setCursorPos ls.sec (i : Int)).cursorPos = (i : Int) :=
        setCursorPos_cursor_inrange _ _ hmode (by positivity)
          (by rw [hcs]; omega)
      have hcont : ls.selected.contains (ls.filtered.get? i) = false :=
        contains_eq_false_of_not_mem (hsel i (by simp))
      have hstep : toggleRowAt ls (i : Int) =
          { ls with sec := setCursorPos ls.sec (i : Int),
                    selected := ls.selected ++ [ls.filtered.get? i] } := by
        unfold toggleRowAt toggleActiveRow
        dsimp only
        rw [hcur]
        rw [Int.toNat_natCast]
        rw [if_neg (by rw [hcont]; simp)]
        rw [setAdd_of_not_mem (hsel i (by simp))]
      have hrows : toggleRows ls (i :: t) = toggleRows (toggleRowAt ls (i : Int)) t := rfl
      rw [hrows, hstep]
      rw [ih]
      · simp
      · rw [setCursorPos_navigationMode]; exact hmode
      · rw [(setCursorPos_geometry _ _).1]; exact hcs
      · exact hnodF
      · exact (List.nodup_cons.mp hnodI).2
      · intro j hj
        exact hrange j (by simp [hj])
      · intro j hj
        have hjr : j < ls.filtered.length := hrange j (by simp [hj])
        rw [List.mem_append]
        push_neg
        refine ⟨hsel j (by simp [hj]), ?_⟩
        have hij : j ≠ i := by
          intro he
          exact (List.nodup_cons.mp hnodI).1 (he ▸ hj)
        rw [List.get?_eq_get hjr, List.get?_eq_get hi]
        simp only [List.mem_singleton, Option.some.injEq]
        intro he
        have hfin := (List.Nodup.get_inj_iff hnodF).mp he
        exact hij (congrArg Fin.val hfin)

/-- Witness for C6 amended (the spec example): with entities 0, 1, 2 and no
filter, toggling rows 0 and 2 in increasing order yields exactly those rows
in original input order. -/
theorem getSelected_insertion_order_witness :
    getSelected (toggleRows c6Section [0, 2]) = [some 0, some 2] := by
  have h := getSelected_insertion_order c6Section [0, 2]
    rfl rfl (by decide) (by decide) (by decide) (by decide)
  rw [h]
  rfl

/-! ## C7: what the selection can contain -/

/-- C7 counterexample input: a list section over an empty entity list (the
popup path also reaches this state after a filter that matches nothing). -/
def c7Section : ListSectionState :=
  { sec := initSection 0 5 NavMode.cursor
    env := fun _ => []
    entities := []
    filtered := []
    selected := []
    validate := fun _ => (true, "") }

/-- C7 counterexample: with an empty filtered view,
`this.filtered[this.cursorPos]` is the JS `undefined` value (modelled
`none`), and toggling inserts it into the selection — a value that is not a
member of the canonical entity set. -/
theorem toggle_inserts_undefined :
    (toggleActiveRow c7Section).selected = [none] ∧
    (∀ x ∈ (toggleActiveRow c7Section).selected,
      x ∉ c7Section.selected ∧ x ∉ c7Section.entities.map some) := by
  decide

/-- C7 amended: provided the cursor is inside the filtered range when the
toggle fires, every element the selection gains is an existing entity
reference (a member of `filtered`, hence of `entities`); ctrl-a only adds
filtered members; and a delete with a non-empty selection clears the
selection entirely, so deleted selected entities leave the selection. -/
theorem selection_membership_amended (ls : ListSectionState)
    (hrange : ls.sec.cursorPos.toNat < ls.filtered.length)
    (hsub : ∀ e ∈ ls.filtered, e ∈ ls.entities) :
    (∀ x ∈ (toggleActiveRow ls).selected,
      x ∈ ls.selected ∨ x ∈ ls.entities.map some) ∧
    (∀ x ∈ (ctrlA ls).selected,
      x ∈ ls.selected ∨ x ∈ ls.entities.map some) ∧
    (0 < ls.selected.length → (deleteRows ls).selected = []) := by
  refine ⟨?_, ?_, ?_⟩
  · intro x hx
    unfold toggleActiveRow at hx
    by_cases hc : ls.selected.contains (ls.filtered.get? ls.sec.cursorPos.toNat)
    · rw [if_pos hc] at hx
      dsimp only at hx
      unfold setDelete at hx
      exact Or.inl (List.mem_of_mem_filter hx)
    · rw [if_neg hc] at hx
      dsimp only at hx
      rcases mem_setAdd hx with h1 | h1
      · exact Or.inl h1
      · right
        rw [List.get?_eq_get hrange] at h1
        rw [h1]
        exact List.mem_map_of_mem _
          (hsub _ (List.get_mem ls.filtered _ hrange))
  · intro x hx
    unfold ctrlA at hx
    by_cases hl : ls.selected.length = ls.filtered.length
    · rw [if_pos hl] at hx
      dsimp only at hx
      cases hx
    · rw [if_neg hl] at hx
      dsimp only at hx
      rcases mem_foldl_setAdd _ _ _ hx with h1 | h1
      · exact Or.inl h1
      · obtain ⟨e, he, hxe⟩ := h1
        right
        rw [hxe]
        exact List.mem_map_of_mem _ (hsub _ he)
  · intro hpos
    unfold deleteRows
    rw [if_pos hpos]

/-- Witness for C7 amended at a concrete input: one entity, selected, cursor
on it; toggling removes it (a no-gain case), ctrl-a clears (sizes equal),
and delete with the non-empty selection empties the selection. -/
theorem selection_membership_amended_witness :
    (∀ x ∈ (toggleActiveRow c5Section).selected,
      x ∈ c5Section.selected ∨ x ∈ c5Section.entities.map some) ∧
    (0 < c5Section.selected.length → (deleteRows c5Section).selected = []) := by
  have h := selection_membership_amended c5Section (by decide) (by decide)
  exact ⟨h.1, h.2.2⟩

/-! ## C8: tokens are regenerated from the buffer, the regex only sometimes -/

/-- A plain printable keystroke. -/
def keyChar (c : String) : Key :=
  { sequence := c, name := c, ctrl := false, meta := false, shift := false }

/-- The backspace keystroke (ctrl variant clears the whole buffer). -/
def keyBackspace (ctrl : Bool) : Key :=
  { sequence := "\x7f", name := "backspace", ctrl := ctrl, meta := false,
    shift := false }

/-- C8 counterexample input: a section in filter mode over one entity. -/
def c8Section : ListSectionState :=
  { sec := { initSection 1 5 NavMode.cursor with filterMode := true }
    env := fun _ => [("name", JsVal.vStr "b")]
    entities := [0]
    filtered := [0]
    selected := []
    validate := fun _ => (true, "") }

/-- C8 counterexample: typing "a" and then erasing it empties the buffer and
the token list, but `filterRegExp` keeps the stale pattern "a" — the filter
setter only rebuilds the regex when the new token list is non-empty, so
tokens and regex are not always regenerated together and an empty buffer
does not leave the state with no regex. -/
theorem filter_clear_leaves_stale_regex :
    (handleTypingLS (handleTypingLS c8Section (keyChar "a"))
        (keyBackspace false)).sec.filterBuf = "" ∧
    (handleTypingLS (handleTypingLS c8Section (keyChar "a"))
        (keyBackspace false)).sec.filterTokens = [] ∧
    (handleTypingLS (handleTypingLS c8Section (keyChar "a"))
        (keyBackspace false)).sec.filterRegExp = some "a" := by
  decide

theorem handleTypingSec_sync (s : SectionState) (k : Key)
    (hs : s.filterTokens = tokenize s.filterBuf) :
    (handleTypingSec s k).filterTokens =
      tokenize (handleTypingSec s k).filterBuf := by
  unfold handleTypingSec
  split_ifs <;> first | exact hs | rfl

/-- C8 amended: the token list is always regenerated from the current buffer
by every filter edit, and an empty buffer yields no tokens, hence no
filtering (filterData returns the full entity set) and no match
highlighting (the renderRow guard `stringMatchFilter` is false on an empty
token list); the regex, however, is only rebuilt when the new token list is
non-empty — clearing the buffer keeps the previous regex object in place. -/
theorem filter_edit_tokens_amended (ls : ListSectionState) (k : Key)
    (str f : String)
    (hsync : ls.sec.filterTokens = tokenize ls.sec.filterBuf) :
    (handleTypingLS ls k).sec.filterTokens =
      tokenize (handleTypingLS ls k).sec.filterBuf ∧
    tokenize "" = [] ∧
    (ls.sec.filterTokens = [] → (filterData ls).filtered = ls.entities) ∧
    stringMatchFilter str [] = false ∧
    (setFilter ls.sec "").filterRegExp = ls.sec.filterRegExp ∧
    (0 < (tokenize f).length →
      (setFilter ls.sec f).filterRegExp =
        some (String.intercalate "|" (tokenize f))) := by
  refine ⟨?_, rfl, ?_, rfl, rfl, ?_⟩
  · unfold handleTypingLS
    split_ifs with h1 h2
    · unfold toggleActiveRow
      dsimp only
      split <;> exact hsync
    · exact hsync
    · obtain ⟨_, _, ht, hb, _, _⟩ :=
        filterData_sets { ls with sec := handleTypingSec ls.sec k }
      rw [ht, hb]
      exact handleTypingSec_sync _ _ hsync
  · intro h
    rw [(filterData_sets ls).2.1, h]
    simp
  · intro hf
    simp only [setFilter]
    rw [if_pos hf]

/-- Witness for C8 amended at a concrete input: after typing "a" in filter
mode the token list equals the tokenization of the buffer, and with no
tokens filterData yields the full entity set. -/
theorem filter_edit_tokens_amended_witness :
    (handleTypingLS c8Section (keyChar "a")).sec.filterTokens =
      tokenize (handleTypingLS c8Section (keyChar "a")).sec.filterBuf ∧
    (filterData c8Section).filtered = c8Section.entities ∧
    stringMatchFilter "row text" [] = false := by
  have h := filter_edit_tokens_amended c8Section (keyChar "a") "row text" "" rfl
  exact ⟨h.1, h.2.2.1 rfl, h.2.2.2.1⟩

/-! ## ActiveTable result aggregation (src/unnamed/part_004 lines 594-696)

The orchestrator state: the ordered list sections (the `sections` array of
part_004 holds only ListSections), the shared popup's isActive flag, and
`returnData`, which is `undefined` (`none`) until a successful getResult
stores the per-section selections; the keypress loop in `handle` resolves
the session promise exactly when `returnData` is set. -/

structure TableState where
  sections : List ListSectionState
  previewActive : Bool
  returnData : Option (List (List (Option Nat)))

/-- In-place mutation of the i-th section object. -/
def updateAt (l : List ListSectionState) (i : Nat)
    (f : ListSectionState → ListSectionState) : List ListSectionState :=
  match l, i with
  | [], _ => []
  | x :: t, 0 => f x :: t
  | x :: t, n + 1 => x :: updateAt t n f

def isActiveAt (t : TableState) (j : Nat) : Bool :=
  match t.sections.get? j with
  | some s => s.sec.isActive
  | none => false

def errorAt (t : TableState) (j : Nat) : String :=
  match t.sections.get? j with
  | some s => s.sec.error
  | none => ""

/-- Section isActive setter (src/unnamed/part_004 lines 84-87): assigning
isActive also forces filter mode off. -/
def setLSActive (b : Bool) (ls : ListSectionState) : ListSectionState :=
  { ls with sec := { ls.sec with filterMode := false, isActive := b } }

/-- Section.setError (src/unnamed/part_004 lines 137-139). -/
def setLSError (msg : String) (ls : ListSectionState) : ListSectionState :=
  { ls with sec := { ls.sec with error := msg } }

/-- The `.some` pass of getResult (part_004 lines 623-640): run validators in
section order with a fresh error carrier each, stop at the first section
whose validator returns false, yielding its index and the carrier message.
The entries pushed to `result` before a failure are discarded because
`returnData` is only assigned when no section fails. -/
def findFirstInvalid : Nat → List ListSectionState → Option (Nat × String)
  | _, [] => none
  | i, s :: rest =>
    let r := s.validate (getSelected s)
    if r.1 then findFirstInvalid (i + 1) rest else some (i, r.2)

/-- Model of `sections.findIndex(({isActive}) => isActive)` used by the
activeSection getter. -/
def findIndexActive : List ListSectionState → Option Nat
  | [] => none
  | s :: t =>
    if s.sec.isActive then some 0 else (findIndexActive t).map (· + 1)

inductive Focus where
  | preview
  | sec (i : Nat)
deriving DecidableEq, Repr

/-- ActiveTable.activeSection getter (part_004 lines 594-598): the popup when
it is active, else the first active section, else section 0. -/
def currentFocus (t : TableState) : Focus :=
  if t.previewActive then Focus.preview
  else
    match findIndexActive t.sections with
    | some i => Focus.sec i
    | none => Focus.sec 0

/-- ActiveTable.getResult (part_004 lines 621-642): when every validator
passes, store one selection array per section, in section order, into
`returnData`; otherwise attach the first failing validator's message to that
section, and if it is not the focused section, focus it and demote the
previously focused one (popup or section), leaving `returnData` untouched. -/
def getResult (t : TableState) : TableState :=
  match findFirstInvalid 0 t.sections with
  | none => { t with returnData := some (t.sections.map getSelected) }
  | some (i, msg) =>
    let t1 : TableState :=
      { t with sections := updateAt t.sections i (setLSError msg) }
    if isActiveAt t1 i then t1
    else
      let prev := currentFocus t1
      let t2 : TableState :=
        { t1 with sections := updateAt t1.sections i (setLSActive true) }
      match prev with
      | Focus.preview => { t2 with previewActive := false }
      | Focus.sec j => { t2 with sections := updateAt t2.sections j (setLSActive false) }

theorem updateAt_length (l : List ListSectionState) (i : Nat)
    (f : ListSectionState → ListSectionState) :
    (updateAt l i f).length = l.length := by
  induction l generalizing i with
  | nil => rfl
  | cons x t ih =>
      cases i with
      | zero => rfl
      | succ n => simp [updateAt, ih]

theorem get?_updateAt_same (l : List ListSectionState) (i : Nat)
    (f : ListSectionState → ListSectionState) :
    (updateAt l i f).get? i = (l.get? i).map f := by
  induction l generalizing i with
  | nil => cases i <;> rfl
  | cons x t ih =>
      cases i with
      | zero => rfl
      | succ n => simpa [updateAt] using ih n

theorem get?_updateAt_other (l : List ListSectionState) (i j : Nat)
    (f : ListSectionState → ListSectionState) (h : j ≠ i) :
    (updateAt l i f).get? j = l.get? j := by
  induction l generalizing i j with
  | nil => cases i <;> rfl
  | cons x t ih =>
      cases i with
      | zero =>
          cases j with
          | zero => exact absurd rfl h
          | succ m => rfl
      | succ n =>
          cases j with
          | zero => rfl
          | succ m => simpa [updateAt] using ih n m (fun he => h (by rw [he]))

theorem findFirstInvalid_some_spec (l : List ListSectionState) (k i : Nat)
    (msg : String) (h : findFirstInvalid k l = some (i, msg)) :
    k ≤ i ∧ i - k < l.length ∧
    ∃ s, l.get? (i - k) = some s ∧
      (s.validate (getSelected s)).1 = false ∧
      (s.validate (getSelected s)).2 = msg := by
  induction l generalizing k with
  | nil => exact absurd h (by simp [findFirstInvalid])
  | cons x t ih =>
      rw [findFirstInvalid] at h
      by_cases hv : (x.validate (getSelected x)).1
      · rw [if_pos hv] at h
        obtain ⟨h1, h2, s, hs⟩ := ih (k + 1) h
        refine ⟨by omega, by simp; omega, s, ?_⟩
        have : i - k = (i - (k + 1)) + 1 := by omega
        rw [this]
        simpa using hs
      · rw [if_neg hv] at h
        have hpair : k = i ∧ (x.validate (getSelected x)).2 = msg := by
          simpa using h
        obtain ⟨he1, he2⟩ := hpair
        refine ⟨by omega, by simp; omega, x, ?_⟩
        have h0 : i - k = 0 := by omega
        rw [h0]
        exact ⟨rfl, Bool.eq_false_iff.mpr hv, he2⟩

theorem findIndexActive_some_spec (l : List ListSectionState) (j : Nat)
    (h : findIndexActive l = some j) :
    ∃ s, l.get? j = some s ∧ s.sec.isActive = true := by
  induction l generalizing j with
  | nil => exact absurd h (by simp [findIndexActive])
  | cons x t ih =>
      rw [findIndexActive] at h
      by_cases hx : x.sec.isActive
      · rw [if_pos hx] at h
        obtain rfl : j = 0 := by simpa using h.symm
        exact ⟨x, rfl, hx⟩
      · rw [if_neg hx] at h
        obtain ⟨j0, hj0, rfl⟩ := Option.map_eq_some'.mp h
        obtain ⟨s, hs, ha⟩ := ih j0 hj0
        exact ⟨s, by simpa using hs, ha⟩

theorem findIndexActive_ne_none (l : List ListSectionState) (j : Nat)
    (s : ListSectionState) (hs : l.get? j = some s)
    (ha : s.sec.isActive = true) : findIndexActive l ≠ none := by
  induction l generalizing j with
  | nil => simp at hs
  | cons x t ih =>
      rw [findIndexActive]
      by_cases hx : x.sec.isActive
      · rw [if_pos hx]; simp
      · rw [if_neg hx]
        cases j with
        | zero =>
            obtain rfl : x = s := by simpa using hs
            exact absurd ha (by simp [hx])
        | succ m =>
            have := ih m (by simpa using hs)
            simpa using this

/-- C3: when every section validator accepts its current selection, getResult
stores one selected-entities array per section, in section order, into
returnData — the value on which the keypress loop in handle resolves the
session; when some validator rejects, returnData stays unset so the session
does not resolve, the first failing section receives the validator's message
as its displayed error and becomes the active (focused) section, and every
other section ends up inactive — in particular the previously focused one is
demoted. -/
theorem getResult_validation (t : TableState)
    (h0 : t.returnData = none)
    (hp : t.previewActive = false)
    (hact : ∃ j, j < t.sections.length ∧ isActiveAt t j = true)
    (hone : ∀ j, j < t.sections.length → ∀ k, k < t.sections.length →
      isActiveAt t j = true → isActiveAt t k = true → j = k) :
    match findFirstInvalid 0 t.sections with
    | none => (getResult t).returnData = some (t.sections.map getSelected)
    | some (i, msg) =>
        (getResult t).returnData = none ∧
        errorAt (getResult t) i = msg ∧
        isActiveAt (getResult t) i = true ∧
        ∀ j, j ≠ i → isActiveAt (getResult t) j = false := by
  cases hff : findFirstInvalid 0 t.sections with
  | none =>
      unfold getResult
      rw [hff]
  | some pr =>
      obtain ⟨i, msg⟩ := pr
      obtain ⟨-, hilen, s_i, hsi, hval, hmsg⟩ :=
        findFirstInvalid_some_spec t.sections 0 i msg hff
      rw [Nat.sub_zero] at hsi hilen
      have hup_same :
          (updateAt t.sections i (setLSError msg)).get? i =
            some (setLSError msg s_i) := by
        rw [get?_updateAt_same, hsi]; rfl
      have hactive_t1 :
          isActiveAt { t with sections := updateAt t.sections i (setLSError msg) } i =
            s_i.sec.isActive := by
        unfold isActiveAt
        dsimp only
        rw [hup_same]
        rfl
      by_cases hAi : s_i.sec.isActive = true
      · -- the failing section is already the focused one: only the error is set
        have hG : getResult t =
            { t with sections := updateAt t.sections i (setLSError msg) } := by
          unfold getResult
          rw [hff]
          dsimp only
          rw [if_pos (by rw [hactive_t1]; exact hAi)]
        refine ⟨by rw [hG]; exact h0, ?_, ?_, ?_⟩
        · rw [hG]
          unfold errorAt
          dsimp only
          rw [hup_same]
          rfl
        · rw [hG]
          unfold isActiveAt
          dsimp only
          rw [hup_same]
          exact hAi
        · intro j hj
          rw [hG]
          unfold isActiveAt
          dsimp only
          rw [get?_updateAt_other _ _ _ _ hj]
          cases hLj : t.sections.get? j with
          | none => rfl
          | some s =>
              by_contra hcon
              have hsA : s.sec.isActive = true := by
                simpa [hLj] using Bool.of_not_eq_false hcon
              have hjlen : j < t.sections.length := by
                by_contra hge
                rw [List.get?_eq_none.mpr (by omega)] at hLj
                cases hLj
              have hiA : isActiveAt t i = true := by
                unfold isActiveAt; rw [hsi]; exact hAi
              have hjA : isActiveAt t j = true := by
                unfold isActiveAt; rw [hLj]; exact hsA
              exact hj (hone j hjlen i hilen hjA hiA)
      · -- the failing section was not focused: it is promoted, the previous
        -- focus is demoted
        obtain ⟨j0, hj0len, hj0act⟩ := hact
        obtain ⟨s0, hs0, hs0act⟩ :
            ∃ s, t.sections.get? j0 = some s ∧ s.sec.isActive = true := by
          unfold isActiveAt at hj0act
          cases hLj : t.sections.get? j0 with
          | none => rw [hLj] at hj0act; cases hj0act
          | some s => exact ⟨s, rfl, by rw [hLj] at hj0act; exact hj0act⟩
        have hj0i : j0 ≠ i := by
          intro he
          rw [he, hsi] at hs0
          obtain rfl : s_i = s0 := by simpa using hs0
          exact hAi hs0act
        have hL1j0 :
            (updateAt t.sections i (setLSError msg)).get? j0 = some s0 := by
          rw [get?_updateAt_other _ _ _ _ hj0i]; exact hs0
        have hfind_ne :
            findIndexActive (updateAt t.sections i (setLSError msg)) ≠ none :=
          findIndexActive_ne_none _ j0 s0 hL1j0 hs0act
        obtain ⟨j1, hj1eq⟩ :
            ∃ j1, findIndexActive (updateAt t.sections i (setLSError msg)) =
              some j1 := by
          cases hfe : findIndexActive (updateAt t.sections i (setLSError msg)) with
          | none => exact absurd hfe hfind_ne
          | some j1 => exact ⟨j1, rfl⟩
        obtain ⟨s1, hs1, hs1act⟩ := findIndexActive_some_spec _ j1 hj1eq
        have hj1i : j1 ≠ i := by
          intro he
          rw [he, hup_same] at hs1
          obtain rfl : setLSError msg s_i = s1 := by simpa using hs1
          exact hAi hs1act
        have hs1t : t.sections.get? j1 = some s1 := by
          rw [← get?_updateAt_other t.sections i j1 (setLSError msg) hj1i]
          exact hs1
        have hj1len : j1 < t.sections.length := by
          by_contra hge
          rw [List.get?_eq_none.mpr (by omega)] at hs1t
          cases hs1t
        have hfocus :
            currentFocus { t with sections := updateAt t.sections i (setLSError msg) } =
              Focus.sec j1 := by
          unfold currentFocus
          dsimp only
          rw [if_neg (by rw [hp]; simp), hj1eq]
        have hG : getResult t =
            { t with sections := updateAt (updateAt (updateAt t.sections i (setLSError msg)) i (setLSActive true)) j1 (setLSActive false) } := by
          unfold getResult
          rw [hff]
          dsimp only
          rw [if_neg (by rw [hactive_t1]; exact hAi), hfocus]
        have hfin_i :
            (updateAt
                (updateAt (updateAt t.sections i (setLSError msg)) i
                  (setLSActive true))
                j1 (setLSActive false)).get? i =
              some (setLSActive true (setLSError msg s_i)) := by
          rw [get?_updateAt_other _ _ _ _ (fun he => hj1i he.symm)]
          rw [get?_updateAt_same, hup_same]
          rfl
        refine ⟨by rw [hG]; exact h0, ?_, ?_, ?_⟩
        · rw [hG]
          unfold errorAt
          dsimp only
          rw [hfin_i]
          rfl
        · rw [hG]
          unfold isActiveAt
          dsimp only
          rw [hfin_i]
          rfl
        · intro j hj
          rw [hG]
          unfold isActiveAt
          dsimp only
          by_cases hjj1 : j = j1
          · subst hjj1
            rw [get?_updateAt_same,
              get?_updateAt_other _ _ _ _ hj,
              get?_updateAt_other _ _ _ _ hj, hs1t]
            rfl
          · rw [get?_updateAt_other _ _ _ _ hjj1,
              get?_updateAt_other _ _ _ _ hj,
              get?_updateAt_other _ _ _ _ hj]
            cases hLj : t.sections.get? j with
            | none => rfl
            | some s =>
                by_contra hcon
                have hsA : s.sec.isActive = true := by
                  simpa [hLj] using Bool.of_not_eq_false hcon
                have hjlen : j < t.sections.length := by
                  by_contra hge
                  rw [List.get?_eq_none.mpr (by omega)] at hLj
                  cases hLj
                have hjA : isActiveAt t j = true := by
                  unfold isActiveAt; rw [hLj]; exact hsA
                have hj1A : isActiveAt t j1 = true := by
                  unfold isActiveAt; rw [hs1t]; exact hs1act
                exact hjj1 (hone j hjlen j1 hj1len hjA hj1A)

/-- A valid section for the C3 witness: focused, one entity selected, and a
validator requiring a non-empty selection. -/
def okSection : ListSectionState :=
  { sec := { initSection 1 5 NavMode.cursor with isActive := true }
    env := fun _ => []
    entities := [0]
    filtered := [0]
    selected := [some 0]
    validate := fun sel => (decide (0 < sel.length), "") }

/-- A failing section for the C3 witness: empty selection and a validator
that rejects it with the message "choose at least one". -/
def badSection : ListSectionState :=
  { sec := initSection 1 5 NavMode.cursor
    env := fun _ => []
    entities := [1]
    filtered := [1]
    selected := []
    validate := fun sel => (decide (0 < sel.length), "choose at least one") }

def c3Table : TableState :=
  { sections := [okSection, badSection]
    previewActive := false
    returnData := none }

/-- Witness for C3 at a concrete table: section 1's validator rejects the
empty selection, so no result is produced, the message is displayed on
section 1, and focus moves from section 0 to section 1. -/
theorem getResult_validation_witness :
    (getResult c3Table).returnData = none ∧
    errorAt (getResult c3Table) 1 = "choose at least one" ∧
    isActiveAt (getResult c3Table) 1 = true ∧
    isActiveAt (getResult c3Table) 0 = false := by
  have h := getResult_validation c3Table rfl rfl ⟨0, by decide, by decide⟩
    (by decide)
  rw [show findFirstInvalid 0 c3Table.sections =
    some (1, "choose at least one") from by decide] at h
  exact ⟨h.1, h.2.1, h.2.2.1, h.2.2.2 0 (by decide)⟩

/-! ## Terminal I/O adapter: differential printing (src/src/io.ts lines 130-145)

`UserIO.print(rows, coords, force)` keeps one cached row list per coords
object (a `Map` keyed by object identity — modelled by an opaque handle),
skips writing rows equal to the cached entry at the same index unless
`force`, stores every row it writes, and finally truncates the cached list
to `rows.length`.  `clear()` erases the screen and empties the whole map. -/

structure IOState where
  cache : List (Nat × List String)

/-- The `rows.forEach` body of print, processed positionally: for each row,
compare it with the cached row at the same index (a missing entry behaves
like JS `undefined`, which never equals a string); on a mismatch, or when
`force` is set, the row is written (flag true) and stored.  When the rows
run out, the remaining cached rows are dropped — this is the final
`cache.length = rows.length` truncation. -/
def printGo : List String → List String → Bool → List String × List Bool
  | _, [], _ => ([], [])
  | cache, row :: rest, force =>
    let hit := !force && (cache.head? == some row)
    let stored := if hit then cache.head?.getD row else row
    let next := printGo cache.tail rest force
    (stored :: next.1, (!hit) :: next.2)

/-- `Map.get` for the per-coordinate cache. -/
def cacheLookup (st : IOState) (coords : Nat) : Option (List String) :=
  (st.cache.find? (fun kv => kv.1 == coords)).map (fun kv => kv.2)

/-- `Map.set` for the per-coordinate cache (replace an existing entry, else
append a new one). -/
def cacheStore (st : IOState) (coords : Nat) (rows : List String) : IOState :=
  if (st.cache.find? (fun kv => kv.1 == coords)).isSome then
    { cache := st.cache.map (fun kv => if kv.1 == coords then (kv.1, rows) else kv) }
  else
    { cache := st.cache ++ [(coords, rows)] }

/-- UserIO.print: fetch (or create empty) the cache entry for the coords,
diff the rows against it, and return the new adapter state together with
one written-flag per row. -/
def userPrint (st : IOState) (rows : List String) (coords : Nat)
    (force : Bool) : IOState × List Bool :=
  let cache0 := (cacheLookup st coords).getD []
  let r := printGo cache0 rows force
  (cacheStore st coords r.1, r.2)

/-- UserIO.clear: erase the screen and invalidate the whole cache. -/
def userClear (st : IOState) : IOState :=
  { cache := [] }

theorem printGo_cache (cache rows : List String) (force : Bool) :
    (printGo cache rows force).1 = rows := by
  induction rows generalizing cache with
  | nil => rfl
  | cons row rest ih =>
      rw [printGo]
      dsimp only
      rw [ih]
      by_cases hhit : (!force && (cache.head? == some row)) = true
      · rw [if_pos hhit]
        have : cache.head? = some row := by
          have h2 := (Bool.and_eq_true _ _).mp hhit
          exact eq_of_beq h2.2
        rw [this]
        rfl
      · rw [if_neg hhit]

theorem get?_tail (l : List String) (n : Nat) :
    l.tail.get? n = l.get? (n + 1) := by
  cases l <;> rfl

theorem printGo_written (cache rows : List String) (force : Bool) (i : Nat) :
    (printGo cache rows force).2.get? i =
      (rows.get? i).map
        (fun row => force || !(cache.get? i == some row)) := by
  induction rows generalizing cache i with
  | nil => rfl
  | cons row rest ih =>
      rw [printGo]
      cases i with
      | zero =>
          dsimp only
          cases hc : cache with
          | nil => cases force <;> rfl
          | cons c ct => cases force <;> simp [List.get?]
      | succ n =>
          dsimp only
          rw [List.get?_cons_succ, List.get?_cons_succ, ih cache.tail n,
            get?_tail]

theorem find_map_store (l : List (Nat × List String)) (c : Nat)
    (rows : List String)
    (h : (l.find? (fun kv => kv.1 == c)).isSome) :
    ((l.map (fun kv => if kv.1 == c then (kv.1, rows) else kv)).find?
        (fun kv => kv.1 == c)).map (fun kv => kv.2) = some rows := by
  induction l with
  | nil => cases h
  | cons kv t ih =>
      by_cases hc : (kv.1 == c) = true
      · simp only [List.map_cons, if_pos hc]
        rw [List.find?_cons_of_pos _ (by simpa using hc)]
        rfl
      · simp only [List.map_cons, if_neg hc]
        rw [List.find?_cons_of_neg _ (by simpa using hc)]
        rw [List.find?_cons_of_neg _ (by simpa using hc)] at h
        exact ih h

theorem find_append_store (l : List (Nat × List String)) (c : Nat)
    (rows : List String)
    (h : l.find? (fun kv => kv.1 == c) = none) :
    ((l ++ [(c, rows)]).find? (fun kv => kv.1 == c)).map (fun kv => kv.2) =
      some rows := by
  induction l with
  | nil => simp [List.find?]
  | cons kv t ih =>
      by_cases hc : (kv.1 == c) = true
      · rw [List.find?_cons_of_pos _ (by simpa using hc)] at h
        cases h
      · rw [List.find?_cons_of_neg _ (by simpa using hc)] at h
        rw [List.cons_append, List.find?_cons_of_neg _ (by simpa using hc)]
        exact ih h

theorem cacheLookup_store (st : IOState) (c : Nat) (rows : List String) :
    cacheLookup (cacheStore st c rows) c = some rows := by
  unfold cacheLookup cacheStore
  by_cases h : (st.cache.find? (fun kv => kv.1 == c)).isSome
  · rw [if_pos h]
    exact find_map_store _ _ _ h
  · rw [if_neg h]
    exact find_append_store _ _ _ (Option.not_isSome_iff_eq_none.mp h)

/-- C9: after `print(rows, coords, force)` the per-coordinate cache equals
exactly the rows just passed; row i was written iff `force` is set or the
row differs from the previously cached row at that index (a missing cache
entry counts as different); and after `clear()` the cache is empty, so the
next print writes every row. -/
theorem print_diff_cache (st : IOState) (rows : List String) (coords : Nat)
    (force : Bool) :
    cacheLookup (userPrint st rows coords force).1 coords = some rows ∧
    (∀ i, (userPrint st rows coords force).2.get? i =
      (rows.get? i).map
        (fun row =>
          force || !(((cacheLookup st coords).getD []).get? i == some row))) ∧
    (∀ i, i < rows.length →
      (userPrint (userClear st) rows coords false).2.get? i = some true) := by
  refine ⟨?_, ?_, ?_⟩
  · unfold userPrint
    dsimp only
    rw [printGo_cache]
    exact cacheLookup_store _ _ _
  · intro i
    unfold userPrint
    dsimp only
    rw [printGo_written]
  · intro i hi
    unfold userPrint
    dsimp only
    rw [printGo_written]
    have hnone : cacheLookup (userClear st) coords = none := rfl
    rw [hnone, List.get?_eq_get hi]
    rfl

/-- Witness for C9 at a concrete input: a cached frame ["a", "b"] at handle 7
reprinted as ["a", "c"] writes only the changed second row, stores the new
rows, and after a clear both rows are rewritten. -/
theorem print_diff_cache_witness :
    cacheLookup
      (userPrint { cache := [(7, ["a", "b"])] } ["a", "c"] 7 false).1 7 =
      some ["a", "c"] ∧
    (userPrint { cache := [(7, ["a", "b"])] } ["a", "c"] 7 false).2.get? 0 =
      some false ∧
    (userPrint { cache := [(7, ["a", "b"])] } ["a", "c"] 7 false).2.get? 1 =
      some true ∧
    (userPrint (userClear { cache := [(7, ["a", "b"])] })
      ["a", "c"] 7 false).2.get? 0 = some true := by
  have h := print_diff_cache { cache := [(7, ["a", "b"])] } ["a", "c"] 7 false
  refine ⟨h.1, ?_, ?_, h.2.2 0 (by decide)⟩
  · rw [h.2.1 0]; rfl
  · rw [h.2.1 1]; rfl

/-! ## Section.render (src/src/section.ts lines 167-185) and its try/catch

The spec treats ANSI styling as an external text-decoration capability, so
the model takes `chalk` (src/src/utils.ts) and the inline ANSI-stripping
regex as abstract functions in `TextCaps`; the row composition, border
drawing and scrollbar geometry are translated from the source.  The
subclass-provided `renderData`/`renderHeader`/`renderFooter` can throw, so
they are modelled as `Except` values; a thrown JS `Error` carries a message
and a stack string. -/

structure JsError where
  message : String
  stack : String
deriving DecidableEq, Repr

structure ChalkStyle where
  color : Option String
  bgColor : Option String
  style : Option String
deriving DecidableEq, Repr

structure TextCaps where
  chalkF : String → ChalkStyle → String
  stripAnsi : String → String

structure RenderParts where
  renderDataE : Except JsError (List String)
  renderHeaderE : Except JsError (Option String)
  renderFooterE : Except JsError (Option String)

/-- Model of `new Array(len + 1).join(char)`. -/
def monoString (char : String) (len : Int) : String :=
  String.join (List.replicate len.toNat char)

/-- JS `Math.floor(a / b)` on integers (0 stands in for the NaN of 0/0,
which the source only produces in branches whose result is unused). -/
def jsFloorDiv (a b : Int) : Int :=
  if b = 0 then 0 else a.fdiv b

/-- JS `Math.ceil(a / b)` on integers, same NaN convention. -/
def jsCeilDiv (a b : Int) : Int :=
  if b = 0 then 0 else -((-a).fdiv b)

/-- Model of `string.slice(start)` (negative indices count from the end). -/
def jsSliceFrom (s : String) (start : Int) : String :=
  let n : Int := s.length
  let begIdx : Int := if start < 0 then max (n + start) 0 else min start n
  String.mk (s.data.drop begIdx.toNat)

/-- utils.limitString: keep the string if shorter than the limit, else an
ellipsis-prefixed tail sized to fit. -/
def limitString (limit : Int) (s : String) : String :=
  if (s.length : Int) < limit then s
  else "…" ++ jsSliceFrom s ((s.length : Int) + 4 - limit)

def borderVertical : String := "│"
def borderHoriz : String := "─"
def borderLeftTop : String := "╭"
def borderRightTop : String := "╮"
def borderLeftBottom : String := "╰"
def borderRightBottom : String := "╯"
def borderScroll : String := "▓"

/-- Section.borderHorisontal (src/src/section.ts lines 203-213): a plain rule
when the text is empty/absent, otherwise the text centred between two border
chunks sized by the ANSI-stripped text length. -/
def borderHorisontal (caps : TextCaps) (len : Int) (text : String) : String :=
  if text = "" then monoString borderHoriz len
  else
    let textLen : Int := (caps.stripAnsi text).length
    let chunkLen := jsFloorDiv (len - textLen) 2
    let borderChunk := monoString borderHoriz chunkLen
    let borderLine := borderChunk ++ text ++ borderChunk
    borderLine ++
      (if len > (borderChunk.length : Int) * 2 + textLen then borderHoriz
       else "")

/-- Section.renderFilter (src/src/section.ts lines 215-224). -/
def renderFilter (s : SectionState) (caps : TextCaps) : String :=
  let title := "🔎"
  let extraLen : Int := 2
  let text :=
    title ++ limitString (s.width - extraLen - (title.length : Int)) s.filterBuf
  if s.isActive && s.filterMode then
    caps.chalkF text
      { color := some "magenta", bgColor := some "white", style := none }
  else text

/-- Section.wrap (src/src/section.ts lines 226-255): frame the rows with a
titled top border, a filter-indicator bottom border, and side borders
carrying a proportional scrollbar. -/
def wrap (s : SectionState) (caps : TextCaps) (rows : List String)
    (totalRowsNum : Int) : List String :=
  let totalRowsNum := if totalRowsNum = 0 then (rows.length : Int) else totalRowsNum
  let highlight : ChalkStyle :=
    { color := some "blue", bgColor := none, style := some "bold" }
  let scrollSize := jsCeilDiv ((rows.length : Int) * (rows.length : Int)) totalRowsNum
  let scrollStart := jsFloorDiv (s.viewportPos * (rows.length : Int)) totalRowsNum
  let scrollEnd := scrollStart + scrollSize
  let verticalBorder :=
    if s.isActive then caps.chalkF borderVertical highlight else borderVertical
  let scrollBorder :=
    if s.isActive then caps.chalkF borderScroll highlight else borderScroll
  let len := s.width - 2
  let title :=
    if s.error ≠ "" then
      caps.chalkF s.error
        { color := some "black", bgColor := some "yellow", style := none }
    else s.renderedTitle
  let top := borderLeftTop ++ borderHorisontal caps len title ++ borderRightTop
  let bottom := borderLeftBottom ++
    borderHorisontal caps len (renderFilter s caps) ++ borderRightBottom
  (if s.isActive then caps.chalkF top highlight else top) ::
    (rows.enum.map (fun p =>
      verticalBorder ++ p.2 ++
        (if scrollStart ≤ (p.1 : Int) ∧ (p.1 : Int) < scrollEnd then
          scrollBorder
        else verticalBorder))) ++
    [if s.isActive then caps.chalkF bottom highlight else bottom]

def optToList : Option String → List String
  | none => []
  | some s => [s]

/-- The try-block of Section.render: compute the body rows, pad with blank
rows up to the viewport size, compose header, body and footer (dropping
falsy entries, i.e. absent or empty strings) and wrap the block in the
frame; any throwing step aborts the block with its error. -/
def renderTry (s : SectionState) (caps : TextCaps) (parts : RenderParts) :
    Except JsError (List String) := do
  let rows ← parts.renderDataE
  let emptyRow := monoString " " (s.width - 2)
  let emptyCount := s.viewportSize - (rows.length : Int)
  let emptyRows :=
    if 0 < emptyCount then List.replicate emptyCount.toNat emptyRow else []
  let hd ← parts.renderHeaderE
  let ft ← parts.renderFooterE
  pure (wrap s caps
    ((optToList hd ++ rows ++ emptyRows ++ optToList ft).filter
      (fun r => r ≠ ""))
    s.contentSize)

/-- Model of `string.split(sep)` for the newline separator used on stacks. -/
def splitLinesAux : List Char → List Char → List (List Char)
  | [], cur => [cur.reverse]
  | c :: rest, cur =>
    if c = Char.ofNat 10 then cur.reverse :: splitLinesAux rest []
    else splitLinesAux rest (c :: cur)

def jsSplitLines (s : String) : List String :=
  (splitLinesAux s.data []).map String.mk

/-- Section.render: the try/catch — on success the framed rows, on any
exception the error message followed by the stack text, split into lines. -/
def render (s : SectionState) (caps : TextCaps) (parts : RenderParts) :
    List String :=
  match renderTry s caps parts with
  | Except.ok rows => rows
  | Except.error e => e.message :: jsSplitLines e.stack

theorem renderTry_error_of_dataE (s : SectionState) (caps : TextCaps)
    (parts : RenderParts) (e : JsError)
    (h : parts.renderDataE = Except.error e) :
    renderTry s caps parts = Except.error e := by
  unfold renderTry
  rw [h]
  rfl

/-- C10: whenever the render try-block throws — renderData itself, or the
subsequent header/footer/frame composition — render does not propagate the
exception: it returns the error's message followed by its stack lines, so
one broken section cannot take down the rest of the screen. -/
theorem render_error_display (s : SectionState) (caps : TextCaps)
    (parts : RenderParts) (e : JsError)
    (h : renderTry s caps parts = Except.error e) :
    render s caps parts = e.message :: jsSplitLines e.stack := by
  unfold render
  rw [h]

/-- Witness for C10 at a concrete input: a renderData that throws is
replaced by its message and stack lines. -/
theorem render_error_display_witness :
    render (initSection 3 2 NavMode.cursor)
      { chalkF := fun str _ => str, stripAnsi := fun str => str }
      { renderDataE := Except.error { message := "boom", stack := "l1\nl2" }
        renderHeaderE := Except.ok none
        renderFooterE := Except.ok none } = ["boom", "l1", "l2"] := by
  have h := render_error_display (initSection 3 2 NavMode.cursor)
    { chalkF := fun str _ => str, stripAnsi := fun str => str }
    { renderDataE := Except.error { message := "boom", stack := "l1\nl2" }
      renderHeaderE := Except.ok none
      renderFooterE := Except.ok none }
    { message := "boom", stack := "l1\nl2" }
    (renderTry_error_of_dataE _ _ _ _ rfl)
  rw [h]
  rfl
